import Mathlib

/-!
Verification development for the nbterm repository: a shallow embedding of
the notebook document model (src/notebook_util/types.rs, impls.rs) and the
modal command core (src/tui/event_translator.rs, editor_commands.rs,
input_mode.rs), with theorems settling the specification claims.

JSON documents are modelled as trees (the type `Json` below mirrors
serde_json's `Value`, with numbers restricted to the integers that actually
occur in the notebook schema).  `Notebook::from_str` / `Notebook::save_to_str`
are modelled at the tree level: serde_json's concrete text rendering and
text parsing are treated as a faithful transport between trees and strings,
so `from_str` consumes a tree and `save_to_str` produces one.  The
serde-derive semantics dictated by the struct/enum attributes in types.rs
(internally tagged enums, `#[serde(flatten)]`, optional fields, integer
width checks, unknown-field tolerance) are embedded directly.
-/

/-- JSON values, mirroring serde_json's `Value`.  Object fields keep their
order, as serde_json's parser and printer do for the documents this
program reads and writes.  Numbers are modelled as integers. -/
inductive Json where
  | null : Json
  | bool (b : Bool) : Json
  | num (n : Int) : Json
  | str (s : String) : Json
  | arr (elems : List Json) : Json
  | obj (fields : List (String × Json)) : Json

/-- First-occurrence field lookup in a JSON object, as serde's map access
behaves on the duplicate-free objects this development manipulates. -/
def getField (fields : List (String × Json)) (k : String) : Option Json :=
  match fields with
  | [] => none
  | (k1, v) :: rest => if k1 = k then some v else getField rest k

/-- Element-wise effectful map over a list, stopping at the first error,
as serde deserializes JSON arrays. -/
def exceptMapM (f : α → Except String β) : List α → Except String (List β)
  | [] => .ok []
  | x :: xs =>
    match f x with
    | .error e => .error e
    | .ok y =>
      match exceptMapM f xs with
      | .error e => .error e
      | .ok ys => .ok (y :: ys)

/-- Deserialize a JSON string (serde: a `String` field). -/
def parseJsonString : Json → Except String String
  | .str s => .ok s
  | _ => .error "invalid type: expected a string"

/-- Deserialize a `Vec<String>` field. -/
def parseStringList : Json → Except String (List String)
  | .arr xs => exceptMapM parseJsonString xs
  | _ => .error "invalid type: expected a sequence"

/-- Deserialize a `u8` field: a non-negative integer below `256`. -/
def parseU8 : Json → Except String Nat
  | .num (.ofNat m) => if m < 256 then .ok m else .error "invalid value: out of range for u8"
  | _ => .error "invalid type: expected u8"

/-- Deserialize a `u32` field: a non-negative integer below `2^32`. -/
def parseU32 : Json → Except String Nat
  | .num (.ofNat m) => if m < 4294967296 then .ok m else .error "invalid value: out of range for u32"
  | _ => .error "invalid type: expected u32"

/-- Serialize an `Option<String>`: serde writes `None` as `null`. -/
def optStrJson : Option String → Json
  | none => .null
  | some s => .str s

/-- Serialize an `Option<u32>`: serde writes `None` as `null`. -/
def optNumJson : Option Nat → Json
  | none => .null
  | some n => .num (Int.ofNat n)

/-- Serialize a `Vec<String>`. -/
def strListJson (l : List String) : Json :=
  .arr (l.map .str)

/-- Behaviour of serde's `FlatMapSerializer` on a `#[serde(flatten)]`
`serde_json::Value` field: an object contributes its entries to the
surrounding map, every other value (including `Value::Null`) is rejected
with serde's "can only flatten structs and maps" error. -/
def flattenFields : Json → Except String (List (String × Json))
  | .obj fs => .ok fs
  | _ => .error "can only flatten structs and maps"

-- ===== notebook_util/types.rs =====

/-- Output objects for code cells (types.rs, `Output`), an enum internally
tagged by `output_type`. -/
inductive Output where
  | Stream (name : String) (text : List String) : Output
  | ExecuteResult (execution_count : Nat) (data : Json) (metadata : Json) : Output
  | DisplayData (data : Json) (metadata : Json) : Output
  | Error (ename : String) (evalue : String) (traceback : List String) : Output

/-- A code cell with executable content and outputs (types.rs, `CodeCell`).
The `u32` execution count is modelled as a `Nat`; constructed values carry
the `< 2^32` bound through the well-formedness predicates below. -/
structure CodeCell where
  source : List String
  metadata : Json
  execution_count : Option Nat
  outputs : List Output

/-- A markdown cell with formatted text (types.rs, `MarkdownCell`). -/
structure MarkdownCell where
  source : List String
  metadata : Json

/-- A raw cell with unformatted text (types.rs, `RawCell`). -/
structure RawCell where
  source : List String
  metadata : Json

/-- Enum of all supported Jupyter cell types (types.rs, `Cell`), internally
tagged by `cell_type` with values `code` / `markdown` / `raw`. -/
inductive Cell where
  | Code (c : CodeCell) : Cell
  | Markdown (c : MarkdownCell) : Cell
  | Raw (c : RawCell) : Cell

/-- Kernel spec metadata (types.rs, `Kernelspec`). -/
structure Kernelspec where
  name : String
  display_name : String

/-- Language info metadata (types.rs, `LanguageInfo`); `other` is the
`#[serde(flatten)]` passthrough `Value`. -/
structure LanguageInfo where
  name : String
  version : Option String
  mimetype : Option String
  file_extension : Option String
  other : Json

/-- Top-level metadata (types.rs, `NotebookMetadata`); `other` is the
`#[serde(flatten)]` passthrough `Value`. -/
structure NotebookMetadata where
  kernelspec : Option Kernelspec
  language_info : Option LanguageInfo
  other : Json

/-- Top-level structure of a Jupyter notebook file (types.rs, `Notebook`).
The `u8` format fields are modelled as `Nat`. -/
structure Notebook where
  cells : List Cell
  metadata : NotebookMetadata
  nbformat : Nat
  nbformat_minor : Nat

/-- `Default for NotebookMetadata` (types.rs): no kernelspec, no language
info, and `other = Value::Null`. -/
def NotebookMetadata.default : NotebookMetadata :=
  { kernelspec := none, language_info := none, other := .null }

/-- `Default for Notebook` (types.rs): no cells, default metadata,
format 4.5. -/
def Notebook.default : Notebook :=
  { cells := [], metadata := NotebookMetadata.default, nbformat := 4, nbformat_minor := 5 }

-- ===== notebook_util/impls.rs: cell mutation =====

/-- Insertion into a list at an index, as `Vec::insert` behaves for indices
up to the length (the only indices `insert_cell` passes through). -/
def listInsertAt (l : List α) (i : Nat) (a : α) : List α :=
  match i, l with
  | 0, l => a :: l
  | _ + 1, [] => [a]
  | i + 1, x :: xs => x :: listInsertAt xs i a

/-- Number of cells in the notebook (impls.rs, `Notebook::len`). -/
def Notebook.len (nb : Notebook) : Nat :=
  nb.cells.length

/-- `Notebook::is_empty` (impls.rs). -/
def Notebook.is_empty (nb : Notebook) : Bool :=
  nb.cells.isEmpty

/-- `Notebook::insert_cell` (impls.rs): insert at `index` when
`index <= len`, reporting success; leave the notebook unchanged and report
failure otherwise.  The mutation is modelled by returning the flag together
with the updated notebook. -/
def Notebook.insert_cell (nb : Notebook) (index : Nat) (cell : Cell) : Bool × Notebook :=
  if index ≤ nb.cells.length then
    (true, { nb with cells := listInsertAt nb.cells index cell })
  else
    (false, nb)

/-- `Notebook::push_cell` (impls.rs): append a cell at the end. -/
def Notebook.push_cell (nb : Notebook) (cell : Cell) : Notebook :=
  { nb with cells := nb.cells ++ [cell] }

/-- `Notebook::insert_markdown_cell` (impls.rs): markdown cell with the
given source lines and `json!({})` metadata. -/
def Notebook.insert_markdown_cell (nb : Notebook) (index : Nat) (source : List String) :
    Bool × Notebook :=
  nb.insert_cell index (.Markdown { source := source, metadata := .obj [] })

/-- `Notebook::insert_raw_cell` (impls.rs). -/
def Notebook.insert_raw_cell (nb : Notebook) (index : Nat) (source : List String) :
    Bool × Notebook :=
  nb.insert_cell index (.Raw { source := source, metadata := .obj [] })

/-- `Notebook::insert_code_cell` (impls.rs). -/
def Notebook.insert_code_cell (nb : Notebook) (index : Nat) (source : List String)
    (execution_count : Option Nat) (outputs : List Output) : Bool × Notebook :=
  nb.insert_cell index
    (.Code { source := source, metadata := .obj [], execution_count := execution_count,
             outputs := outputs })

/-- `Notebook::push_markdown_cell` (impls.rs). -/
def Notebook.push_markdown_cell (nb : Notebook) (source : List String) : Notebook :=
  nb.push_cell (.Markdown { source := source, metadata := .obj [] })

/-- `Notebook::push_raw_cell` (impls.rs). -/
def Notebook.push_raw_cell (nb : Notebook) (source : List String) : Notebook :=
  nb.push_cell (.Raw { source := source, metadata := .obj [] })

/-- `Notebook::push_code_cell` (impls.rs). -/
def Notebook.push_code_cell (nb : Notebook) (source : List String)
    (execution_count : Option Nat) (outputs : List Output) : Notebook :=
  nb.push_cell
    (.Code { source := source, metadata := .obj [], execution_count := execution_count,
             outputs := outputs })

/-- `Notebook::code_cells` (impls.rs), as the list of items the filtered
iterator yields in order. -/
def Notebook.code_cells (nb : Notebook) : List CodeCell :=
  nb.cells.filterMap (fun cell =>
    match cell with
    | .Code code => some code
    | _ => none)

/-- `Notebook::markdown_cells` (impls.rs). -/
def Notebook.markdown_cells (nb : Notebook) : List MarkdownCell :=
  nb.cells.filterMap (fun cell =>
    match cell with
    | .Markdown md => some md
    | _ => none)

-- ===== notebook_util/impls.rs: Output constructors =====

/-- `Output::stream_stdout` (impls.rs). -/
def Output.stream_stdout (text : String) : Output :=
  .Stream "stdout" [text]

/-- `Output::stream_stderr` (impls.rs). -/
def Output.stream_stderr (text : String) : Output :=
  .Stream "stderr" [text]

/-- `Output::execute_result` (impls.rs): plain-text data payload. -/
def Output.execute_result (execution_count : Nat) (result : String) : Output :=
  .ExecuteResult execution_count (.obj [("text/plain", .str result)]) (.obj [])

/-- `Output::error` (impls.rs). -/
def Output.error (ename : String) (evalue : String) (traceback : List String) : Output :=
  .Error ename evalue traceback

-- ===== notebook_util serialization (impls.rs save_to_str, serde derive) =====

/-- Serialization of an `Output` (serde derive on types.rs `Output`):
an object tagged by `output_type`, fields in declaration order. -/
def Output.toJson : Output → Json
  | .Stream name text =>
    .obj [("output_type", .str "stream"), ("name", .str name), ("text", strListJson text)]
  | .ExecuteResult execution_count data metadata =>
    .obj [("output_type", .str "execute_result"), ("execution_count", .num (Int.ofNat execution_count)),
          ("data", data), ("metadata", metadata)]
  | .DisplayData data metadata =>
    .obj [("output_type", .str "display_data"), ("data", data), ("metadata", metadata)]
  | .Error ename evalue traceback =>
    .obj [("output_type", .str "error"), ("ename", .str ename), ("evalue", .str evalue),
          ("traceback", strListJson traceback)]

/-- Serialization of a `Cell` (serde derive on types.rs `Cell`): an object
tagged by `cell_type`, then the variant struct's fields in order. -/
def Cell.toJson : Cell → Json
  | .Code c =>
    .obj [("cell_type", .str "code"), ("source", strListJson c.source),
          ("metadata", c.metadata), ("execution_count", optNumJson c.execution_count),
          ("outputs", .arr (c.outputs.map Output.toJson))]
  | .Markdown c =>
    .obj [("cell_type", .str "markdown"), ("source", strListJson c.source),
          ("metadata", c.metadata)]
  | .Raw c =>
    .obj [("cell_type", .str "raw"), ("source", strListJson c.source),
          ("metadata", c.metadata)]

/-- Serialization of a `Kernelspec`. -/
def Kernelspec.toJson (k : Kernelspec) : Json :=
  .obj [("name", .str k.name), ("display_name", .str k.display_name)]

/-- Serialization of a `LanguageInfo`: typed fields in declaration order
(absent options as `null`), then the flattened `other` entries; fails when
`other` is not an object (serde's flatten restriction). -/
def LanguageInfo.toJson (li : LanguageInfo) : Except String Json :=
  match flattenFields li.other with
  | .error e => .error e
  | .ok extra =>
    .ok (.obj ([("name", .str li.name), ("version", optStrJson li.version),
                ("mimetype", optStrJson li.mimetype),
                ("file_extension", optStrJson li.file_extension)] ++ extra))

/-- Serialization of the `language_info` field value. -/
def optLanguageInfoJson : Option LanguageInfo → Except String Json
  | none => .ok .null
  | some li => li.toJson

/-- Serialization of a `NotebookMetadata`: `kernelspec` and `language_info`
(absent options as `null`), then the flattened `other` entries; fails when
`other` is not an object — in particular on the `Value::Null` that
`NotebookMetadata::default` installs. -/
def NotebookMetadata.toJson (m : NotebookMetadata) : Except String Json :=
  match optLanguageInfoJson m.language_info with
  | .error e => .error e
  | .ok liJson =>
    match flattenFields m.other with
    | .error e => .error e
    | .ok extra =>
      .ok (.obj ([("kernelspec", match m.kernelspec with
                                 | none => .null
                                 | some k => k.toJson),
                  ("language_info", liJson)] ++ extra))

/-- `Notebook::save_to_str` (impls.rs), at the JSON-tree level: serialize
the notebook, propagating serde's serialization errors. -/
def Notebook.save_to_str (nb : Notebook) : Except String Json :=
  match nb.metadata.toJson with
  | .error e => .error e
  | .ok md =>
    .ok (.obj [("cells", .arr (nb.cells.map Cell.toJson)), ("metadata", md),
               ("nbformat", .num (Int.ofNat nb.nbformat)),
               ("nbformat_minor", .num (Int.ofNat nb.nbformat_minor))])

-- ===== notebook_util deserialization (impls.rs from_str, serde derive) =====

/-- Required field access: serde's "missing field" error when absent. -/
def reqField (fields : List (String × Json)) (k : String) : Except String Json :=
  match getField fields k with
  | some v => .ok v
  | none => .error ("missing field " ++ k)

/-- Optional `Option<String>` struct field: absent or `null` is `None`. -/
def parseOptStrField (fields : List (String × Json)) (k : String) :
    Except String (Option String) :=
  match getField fields k with
  | none => .ok none
  | some .null => .ok none
  | some (.str s) => .ok (some s)
  | some _ => .error "invalid type: expected a string"

/-- Deserialize an `Option<u32>` from a present value: `null` is `None`. -/
def parseOptU32Value : Json → Except String (Option Nat)
  | .null => .ok none
  | v =>
    match parseU32 v with
    | .error e => .error e
    | .ok n => .ok (some n)

/-- Optional `Option<u32>` struct field: an absent field is `None`. -/
def parseOptU32Field (fields : List (String × Json)) (k : String) :
    Except String (Option Nat) :=
  match getField fields k with
  | none => .ok none
  | some v => parseOptU32Value v

/-- Deserialization of an `Output`: dispatch on the `output_type` tag;
an unknown or missing tag is an error, never a default variant. -/
def Output.fromJson (j : Json) : Except String Output :=
  match j with
  | .obj fields =>
    match getField fields "output_type" with
    | some (.str tag) =>
      if tag = "stream" then
        match reqField fields "name" with
        | .error e => .error e
        | .ok nameJson =>
          match parseJsonString nameJson with
          | .error e => .error e
          | .ok name =>
            match reqField fields "text" with
            | .error e => .error e
            | .ok textJson =>
              match parseStringList textJson with
              | .error e => .error e
              | .ok text => .ok (.Stream name text)
      else if tag = "execute_result" then
        match reqField fields "execution_count" with
        | .error e => .error e
        | .ok ecJson =>
          match parseU32 ecJson with
          | .error e => .error e
          | .ok ec =>
            match reqField fields "data" with
            | .error e => .error e
            | .ok data =>
              match reqField fields "metadata" with
              | .error e => .error e
              | .ok metadata => .ok (.ExecuteResult ec data metadata)
      else if tag = "display_data" then
        match reqField fields "data" with
        | .error e => .error e
        | .ok data =>
          match reqField fields "metadata" with
          | .error e => .error e
          | .ok metadata => .ok (.DisplayData data metadata)
      else if tag = "error" then
        match reqField fields "ename" with
        | .error e => .error e
        | .ok enameJson =>
          match parseJsonString enameJson with
          | .error e => .error e
          | .ok ename =>
            match reqField fields "evalue" with
            | .error e => .error e
            | .ok evalueJson =>
              match parseJsonString evalueJson with
              | .error e => .error e
              | .ok evalue =>
                match reqField fields "traceback" with
                | .error e => .error e
                | .ok tbJson =>
                  match parseStringList tbJson with
                  | .error e => .error e
                  | .ok traceback => .ok (.Error ename evalue traceback)
      else
        .error ("unknown variant " ++ tag)
    | some _ => .error "invalid type for tag output_type"
    | none => .error "missing field output_type"
  | _ => .error "invalid type: expected an output object"

/-- Deserialization of a `Cell`: dispatch on the `cell_type` tag; an
unknown or missing tag is an error, never a default variant. -/
def Cell.fromJson (j : Json) : Except String Cell :=
  match j with
  | .obj fields =>
    match getField fields "cell_type" with
    | some (.str tag) =>
      if tag = "code" then
        match reqField fields "source" with
        | .error e => .error e
        | .ok srcJson =>
          match parseStringList srcJson with
          | .error e => .error e
          | .ok source =>
            match reqField fields "metadata" with
            | .error e => .error e
            | .ok metadata =>
              match parseOptU32Field fields "execution_count" with
              | .error e => .error e
              | .ok execution_count =>
                match reqField fields "outputs" with
                | .error e => .error e
                | .ok outputsJson =>
                  match outputsJson with
                  | .arr outs =>
                    match exceptMapM Output.fromJson outs with
                    | .error e => .error e
                    | .ok outputs =>
                      .ok (.Code { source := source, metadata := metadata,
                                   execution_count := execution_count, outputs := outputs })
                  | _ => .error "invalid type: expected a sequence"
      else if tag = "markdown" then
        match reqField fields "source" with
        | .error e => .error e
        | .ok srcJson =>
          match parseStringList srcJson with
          | .error e => .error e
          | .ok source =>
            match reqField fields "metadata" with
            | .error e => .error e
            | .ok metadata => .ok (.Markdown { source := source, metadata := metadata })
      else if tag = "raw" then
        match reqField fields "source" with
        | .error e => .error e
        | .ok srcJson =>
          match parseStringList srcJson with
          | .error e => .error e
          | .ok source =>
            match reqField fields "metadata" with
            | .error e => .error e
            | .ok metadata => .ok (.Raw { source := source, metadata := metadata })
      else
        .error ("unknown variant " ++ tag)
    | some _ => .error "invalid type for tag cell_type"
    | none => .error "missing field cell_type"
  | _ => .error "invalid type: expected a cell object"

/-- Deserialization of a `Kernelspec`: `name` and `display_name` required
strings, unknown fields ignored. -/
def Kernelspec.fromJson (j : Json) : Except String Kernelspec :=
  match j with
  | .obj fields =>
    match reqField fields "name" with
    | .error e => .error e
    | .ok nameJson =>
      match parseJsonString nameJson with
      | .error e => .error e
      | .ok name =>
        match reqField fields "display_name" with
        | .error e => .error e
        | .ok dnJson =>
          match parseJsonString dnJson with
          | .error e => .error e
          | .ok display_name => .ok { name := name, display_name := display_name }
  | _ => .error "invalid type: expected a kernelspec object"

/-- Keys of `LanguageInfo` consumed by typed fields; the rest flow into
the flattened `other` value. -/
def liOtherKeep (kv : String × Json) : Bool :=
  !(kv.1 == "name") && !(kv.1 == "version") && !(kv.1 == "mimetype")
    && !(kv.1 == "file_extension")

/-- Deserialization of a `LanguageInfo`: `name` required, the three
optional strings consumed when present, every remaining entry collected
into the flattened `other` object. -/
def LanguageInfo.fromJson (j : Json) : Except String LanguageInfo :=
  match j with
  | .obj fields =>
    match reqField fields "name" with
    | .error e => .error e
    | .ok nameJson =>
      match parseJsonString nameJson with
      | .error e => .error e
      | .ok name =>
        match parseOptStrField fields "version" with
        | .error e => .error e
        | .ok version =>
          match parseOptStrField fields "mimetype" with
          | .error e => .error e
          | .ok mimetype =>
            match parseOptStrField fields "file_extension" with
            | .error e => .error e
            | .ok file_extension =>
              .ok { name := name, version := version, mimetype := mimetype,
                    file_extension := file_extension,
                    other := .obj (fields.filter liOtherKeep) }
  | _ => .error "invalid type: expected a language_info object"

/-- Parse the optional `kernelspec` entry: absent or `null` is `None`. -/
def parseKernelspecField (fields : List (String × Json)) :
    Except String (Option Kernelspec) :=
  match getField fields "kernelspec" with
  | none => .ok none
  | some .null => .ok none
  | some v =>
    match Kernelspec.fromJson v with
    | .error e => .error e
    | .ok ks => .ok (some ks)

/-- Parse the optional `language_info` entry: absent or `null` is `None`. -/
def parseLanguageInfoField (fields : List (String × Json)) :
    Except String (Option LanguageInfo) :=
  match getField fields "language_info" with
  | none => .ok none
  | some .null => .ok none
  | some v =>
    match LanguageInfo.fromJson v with
    | .error e => .error e
    | .ok li => .ok (some li)

/-- Keys of `NotebookMetadata` consumed by typed fields. -/
def mdOtherKeep (kv : String × Json) : Bool :=
  !(kv.1 == "kernelspec") && !(kv.1 == "language_info")

/-- Deserialization of a `NotebookMetadata`: the two typed entries consumed
when present, every remaining entry collected into the flattened `other`
object. -/
def NotebookMetadata.fromJson (j : Json) : Except String NotebookMetadata :=
  match j with
  | .obj fields =>
    match parseKernelspecField fields with
    | .error e => .error e
    | .ok kernelspec =>
      match parseLanguageInfoField fields with
      | .error e => .error e
      | .ok language_info =>
        .ok { kernelspec := kernelspec, language_info := language_info,
              other := .obj (fields.filter mdOtherKeep) }
  | _ => .error "invalid type: expected a metadata object"

/-- `Notebook::from_str` (impls.rs), at the JSON-tree level: the four
declared fields are required (unknown top-level keys are ignored), cells
and outputs dispatch on their discriminators, and any failure aborts the
whole parse — a `Notebook` is never partially populated. -/
def Notebook.from_str (j : Json) : Except String Notebook :=
  match j with
  | .obj fields =>
    match reqField fields "cells" with
    | .error e => .error e
    | .ok cellsJson =>
      match cellsJson with
      | .arr cellList =>
        match exceptMapM Cell.fromJson cellList with
        | .error e => .error e
        | .ok cells =>
          match reqField fields "metadata" with
          | .error e => .error e
          | .ok mdJson =>
            match NotebookMetadata.fromJson mdJson with
            | .error e => .error e
            | .ok metadata =>
              match reqField fields "nbformat" with
              | .error e => .error e
              | .ok fmtJson =>
                match parseU8 fmtJson with
                | .error e => .error e
                | .ok nbformat =>
                  match reqField fields "nbformat_minor" with
                  | .error e => .error e
                  | .ok fmtMinorJson =>
                    match parseU8 fmtMinorJson with
                    | .error e => .error e
                    | .ok nbformat_minor =>
                      .ok { cells := cells, metadata := metadata,
                            nbformat := nbformat, nbformat_minor := nbformat_minor }
      | _ => .error "invalid type: expected a sequence"
  | _ => .error "invalid type: expected a notebook object"

-- ===== tui/input_mode.rs =====

/-- Input modes (input_mode.rs, `InputMode`): eight variants, `Normal` is
the `#[default]`. -/
inductive InputMode where
  | Normal : InputMode
  | Insert : InputMode
  | Command : InputMode
  | Visual : InputMode
  | VisualLine : InputMode
  | VisualBlock : InputMode
  | Replace : InputMode
  | UICursor : InputMode
deriving DecidableEq

-- ===== crossterm key events (external input type consumed by the core) =====

/-- Key codes, mirroring the crossterm `KeyCode` variants the key tables
and claims range over. -/
inductive KeyCode where
  | Backspace : KeyCode
  | Enter : KeyCode
  | Left : KeyCode
  | Right : KeyCode
  | Up : KeyCode
  | Down : KeyCode
  | Home : KeyCode
  | End : KeyCode
  | PageUp : KeyCode
  | PageDown : KeyCode
  | Tab : KeyCode
  | BackTab : KeyCode
  | Delete : KeyCode
  | Insert : KeyCode
  | F (n : Nat) : KeyCode
  | Char (c : Char) : KeyCode
  | Null : KeyCode
  | Esc : KeyCode
deriving DecidableEq

/-- Modifier set, mirroring crossterm's `KeyModifiers` bitflags. -/
structure KeyModifiers where
  shift : Bool
  control : Bool
  alt : Bool
  superKey : Bool
  hyper : Bool
  meta : Bool
deriving DecidableEq

/-- The empty modifier set, crossterm's `KeyModifiers::NONE`. -/
def KeyModifiers.NONE : KeyModifiers :=
  { shift := false, control := false, alt := false, superKey := false,
    hyper := false, meta := false }

/-- The control-only modifier set, crossterm's `KeyModifiers::CONTROL`. -/
def KeyModifiers.CONTROL : KeyModifiers :=
  { shift := false, control := true, alt := false, superKey := false,
    hyper := false, meta := false }

/-- A key event; the translator reads only the code and the modifier set
(crossterm's kind/state fields are never consulted by the source). -/
structure KeyEvent where
  code : KeyCode
  modifiers : KeyModifiers
deriving DecidableEq

-- ===== tui/editor_commands.rs =====

/-- A `regex::Regex` argument, modelled by its pattern text; the default
binding tables never construct one. -/
structure RegexPattern where
  pattern : String

/-- Navigation commands (editor_commands.rs, `NavigationCommand`). -/
inductive NavigationCommand where
  | Up : NavigationCommand
  | Down : NavigationCommand
  | Left : NavigationCommand
  | Right : NavigationCommand
  | ToLine (n : Nat) : NavigationCommand
  | ToColumn (n : Nat) : NavigationCommand
  | ToNextWordStart : NavigationCommand
  | ToNextWordEnd : NavigationCommand
  | ToPreviousWordStart : NavigationCommand
  | ToLineStart : NavigationCommand
  | ToLineEnd : NavigationCommand
  | PageDown : NavigationCommand
  | PageUp : NavigationCommand
  | ToNextSearchResultStart : NavigationCommand
  | ToNextSearchResultEnd : NavigationCommand
  | ToPreviousSearchResultStart : NavigationCommand
  | ToPreviousSearchResultEnd : NavigationCommand
  | ToNextOutlineItemStart : NavigationCommand
  | ToNextOutlineItemEnd : NavigationCommand
  | ToPreviousOutlineItemStart : NavigationCommand
  | ToPreviousOutlineItemEnd : NavigationCommand
  | ToNextBookmark : NavigationCommand

/-- The closed command vocabulary (editor_commands.rs, `EditorCommand`).
`PathBuf` arguments are modelled as strings and `usize` as `Nat`. -/
inductive EditorCommand where
  | Quit : EditorCommand
  | ToggleFilePicker : EditorCommand
  | ToggleOutline : EditorCommand
  | ToggleSettings : EditorCommand
  | ToggleSymbols : EditorCommand
  | ToggleSearch : EditorCommand
  | ToggleLeftPane : EditorCommand
  | ToggleRightPane : EditorCommand
  | ToggleTabline : EditorCommand
  | ToggleStatusBar : EditorCommand
  | ToggleDiff : EditorCommand
  | ToggleLineNumbers : EditorCommand
  | ToggleWordWrap : EditorCommand
  | ToggleAutoIndent : EditorCommand
  | ToggleSyntaxHighlighting : EditorCommand
  | ToggleAutoComplete : EditorCommand
  | ToggleAutoCloseBrackets : EditorCommand
  | ToggleAutoCloseQuotes : EditorCommand
  | OpenFile (path : String) : EditorCommand
  | SaveFile : EditorCommand
  | SaveFileAs (path : String) : EditorCommand
  | CloseFile : EditorCommand
  | NewFile : EditorCommand
  | Undo : EditorCommand
  | Redo : EditorCommand
  | Navigate (nav : NavigationCommand) : EditorCommand
  | Repeat (inner : EditorCommand) (count : Nat) : EditorCommand
  | Input (text : String) : EditorCommand
  | ToLeftPane : EditorCommand
  | ToRightPane : EditorCommand
  | ToUpperPane : EditorCommand
  | ToLowerPane : EditorCommand
  | ToNextTab : EditorCommand
  | ToPreviousTab : EditorCommand
  | ToTab (n : Nat) : EditorCommand
  | Search (r : RegexPattern) : EditorCommand
  | Replace (s : String) : EditorCommand
  | DeleteText : EditorCommand
  | DeleteLine : EditorCommand
  | DeleteWord : EditorCommand
  | DeletePreviousWord : EditorCommand
  | DeleteToEndOfLine : EditorCommand
  | DeleteToStartOfLine : EditorCommand
  | DeleteToEndOfFile : EditorCommand
  | DeleteToStartOfFile : EditorCommand
  | Copy : EditorCommand
  | Cut : EditorCommand
  | Paste : EditorCommand
  | Concatenate : EditorCommand
  | Skip : EditorCommand
  | Deselect : EditorCommand
  | SwitchToInsertMode : EditorCommand
  | SwitchToNormalMode : EditorCommand
  | SwitchToVisualMode : EditorCommand
  | SwitchToVisualLineMode : EditorCommand
  | SwitchToVisualBlockMode : EditorCommand
  | SwitchToReplaceMode : EditorCommand
  | SwitchToCommandMode : EditorCommand

-- ===== tui/event_translator.rs =====

/-- Key-value insertion with `HashMap::insert` semantics: an existing entry
for the key has its value replaced, a new key is added. -/
def mapInsert [DecidableEq κ] (m : List (κ × α)) (k : κ) (v : α) : List (κ × α) :=
  match m with
  | [] => [(k, v)]
  | (k1, v1) :: rest => if k1 = k then (k, v) :: rest else (k1, v1) :: mapInsert rest k v

/-- Key lookup with `HashMap::get` semantics. -/
def mapGet [DecidableEq κ] (m : List (κ × α)) (k : κ) : Option α :=
  match m with
  | [] => none
  | (k1, v1) :: rest => if k1 = k then some v1 else mapGet rest k

/-- The event translator (event_translator.rs, `EventTranslator`): one
binding table per mode — seven tables; the source declares none for
`Replace`. -/
structure EventTranslator where
  normal_mode_event_map : List ((KeyCode × KeyModifiers) × EditorCommand)
  insert_mode_event_map : List ((KeyCode × KeyModifiers) × EditorCommand)
  visual_mode_event_map : List ((KeyCode × KeyModifiers) × EditorCommand)
  visual_line_mode_event_map : List ((KeyCode × KeyModifiers) × EditorCommand)
  visual_block_mode_event_map : List ((KeyCode × KeyModifiers) × EditorCommand)
  command_mode_event_map : List ((KeyCode × KeyModifiers) × EditorCommand)
  ui_cursor_mode_event_map : List ((KeyCode × KeyModifiers) × EditorCommand)

/-- `Default for EventTranslator` (event_translator.rs): the insertions in
source order; note the second insertion at `(Char('v'), CONTROL)` in the
normal-mode map replaces the earlier `SwitchToVisualMode` binding. -/
def EventTranslator.default : EventTranslator :=
  let normal0 : List ((KeyCode × KeyModifiers) × EditorCommand) := []
  let normal1 := mapInsert normal0 (KeyCode.Char 'q', KeyModifiers.CONTROL) EditorCommand.Quit
  let normal2 := mapInsert normal1 (KeyCode.Char 'h', KeyModifiers.CONTROL) EditorCommand.ToLeftPane
  let normal3 := mapInsert normal2 (KeyCode.Char 'l', KeyModifiers.CONTROL) EditorCommand.ToRightPane
  let normal4 := mapInsert normal3 (KeyCode.Char 'j', KeyModifiers.CONTROL) EditorCommand.ToUpperPane
  let normal5 := mapInsert normal4 (KeyCode.Char 'k', KeyModifiers.CONTROL) EditorCommand.ToLowerPane
  let normal6 := mapInsert normal5 (KeyCode.Char 'i', KeyModifiers.CONTROL) EditorCommand.SwitchToInsertMode
  let normal7 := mapInsert normal6 (KeyCode.Char 'v', KeyModifiers.CONTROL) EditorCommand.SwitchToVisualMode
  let normal8 := mapInsert normal7 (KeyCode.Char 'V', KeyModifiers.NONE) EditorCommand.SwitchToVisualLineMode
  let normal9 := mapInsert normal8 (KeyCode.Char 'v', KeyModifiers.CONTROL) EditorCommand.SwitchToVisualBlockMode
  let insert0 : List ((KeyCode × KeyModifiers) × EditorCommand) := []
  let insert1 := mapInsert insert0 (KeyCode.Char 'i', KeyModifiers.CONTROL) (EditorCommand.Input "\t")
  let insert2 := mapInsert insert1 (KeyCode.Char 'c', KeyModifiers.CONTROL) EditorCommand.SwitchToNormalMode
  let insert3 := mapInsert insert2 (KeyCode.Char 'w', KeyModifiers.CONTROL) EditorCommand.DeletePreviousWord
  let insert4 := mapInsert insert3 (KeyCode.Esc, KeyModifiers.NONE) EditorCommand.SwitchToNormalMode
  { normal_mode_event_map := normal9
    insert_mode_event_map := insert4
    visual_mode_event_map := []
    visual_line_mode_event_map := []
    visual_block_mode_event_map := []
    command_mode_event_map := []
    ui_cursor_mode_event_map := [] }

/-- `EventTranslator::translate_key_event` (event_translator.rs): look the
`(key code, modifier set)` pair up in the active mode's table.  The source
`match` has an arm for seven of the eight `InputMode` variants and none for
`Replace` (and no replace-mode table exists), so the function is not total
as written; the outer `Option` records this — `some r` is the result the
source computes in a mode that has a match arm, `none` marks the missing
`Replace` arm. -/
def EventTranslator.translate_key_event (t : EventTranslator) (key_event : KeyEvent)
    (input_mode : InputMode) : Option (Option EditorCommand) :=
  let key := (key_event.code, key_event.modifiers)
  match input_mode with
  | .Normal => some (mapGet t.normal_mode_event_map key)
  | .Insert => some (mapGet t.insert_mode_event_map key)
  | .Visual => some (mapGet t.visual_mode_event_map key)
  | .VisualLine => some (mapGet t.visual_line_mode_event_map key)
  | .VisualBlock => some (mapGet t.visual_block_mode_event_map key)
  | .Command => some (mapGet t.command_mode_event_map key)
  | .UICursor => some (mapGet t.ui_cursor_mode_event_map key)
  | .Replace => none

-- ===== tui dispatcher (editor_commands.rs `execute_command`) =====

/-- The editor session state `execute_command` acts on (tui/mod.rs,
`NotebookApp`: a notebook and a selection index).  Modelled from the spec:
the termination flag `leaving` — written by `execute_command` on `Quit` and
described by the spec as "`Quit` sets a termination flag" — is not declared
in any struct of the snapshot, so it is added here as a boolean field. -/
structure NotebookApp where
  notebook : Notebook
  selected : Nat
  leaving : Bool

/-- `NotebookApp::execute_command` (editor_commands.rs): only `Quit` is
wired (it sets `leaving`); every other command, including `Repeat(..)`,
falls into the catch-all arm and leaves the session unchanged. -/
def NotebookApp.execute_command (app : NotebookApp) (command : EditorCommand) : NotebookApp :=
  match command with
  | .Quit => { app with leaving := true }
  | _ => app

-- ===== Well-formedness and reachability of model-built notebooks =====

/-- Rust-side typing constraint on an `Output` value: the `u32` execution
count of an `ExecuteResult` fits in 32 bits.  Every `Output` a Rust caller
can hold satisfies this. -/
def Output.Wf : Output → Prop
  | .ExecuteResult ec _ _ => ec < 4294967296
  | _ => True

/-- Rust-side typing constraint on a `Cell` value: a code cell's optional
`u32` execution count fits in 32 bits and its outputs are well formed. -/
def Cell.Wf : Cell → Prop
  | .Code c => (∀ n, c.execution_count = some n → n < 4294967296) ∧ ∀ o ∈ c.outputs, o.Wf
  | .Markdown _ => True
  | .Raw _ => True

/-- The notebooks representable by the model: built from
`Notebook::default` by the public insert/push mutation operations.  The
numeric side conditions record the `u32` typing of the Rust arguments. -/
inductive Reachable : Notebook → Prop where
  | base : Reachable Notebook.default
  | insert_markdown (nb : Notebook) (i : Nat) (src : List String) :
      Reachable nb → Reachable (nb.insert_markdown_cell i src).2
  | insert_raw (nb : Notebook) (i : Nat) (src : List String) :
      Reachable nb → Reachable (nb.insert_raw_cell i src).2
  | insert_code (nb : Notebook) (i : Nat) (src : List String) (ec : Option Nat)
      (outs : List Output) (hec : ∀ n, ec = some n → n < 4294967296)
      (houts : ∀ o ∈ outs, Output.Wf o) :
      Reachable nb → Reachable (nb.insert_code_cell i src ec outs).2
  | push_markdown (nb : Notebook) (src : List String) :
      Reachable nb → Reachable (nb.push_markdown_cell src)
  | push_raw (nb : Notebook) (src : List String) :
      Reachable nb → Reachable (nb.push_raw_cell src)
  | push_code (nb : Notebook) (src : List String) (ec : Option Nat)
      (outs : List Output) (hec : ∀ n, ec = some n → n < 4294967296)
      (houts : ∀ o ∈ outs, Output.Wf o) :
      Reachable nb → Reachable (nb.push_code_cell src ec outs)

/-- A notebook with its top-level passthrough metadata replaced by the
empty JSON object — the shape any parsed notebook carries, in contrast to
the `Value::Null` that `Notebook::default` installs. -/
def Notebook.withEmptyOther (nb : Notebook) : Notebook :=
  { nb with metadata := { nb.metadata with other := .obj [] } }

-- ===== Concrete inputs used by witnesses and counterexamples =====

/-- A sample markdown cell. -/
def sampleCell : Cell :=
  .Markdown { source := ["# Title"], metadata := .obj [] }

/-- A sample model-built notebook: default, then one pushed code cell. -/
def sampleNb : Notebook :=
  Notebook.default.push_code_cell ["x=1"] (some 1) [Output.stream_stdout "hi"]

/-- A cell object with an unknown `cell_type` discriminator. -/
def badCellFields : List (String × Json) :=
  [("cell_type", .str "cod")]

/-- An output object with an unknown `output_type` discriminator. -/
def badOutputFields : List (String × Json) :=
  [("output_type", .str "streamz")]

/-- A notebook document whose single cell has an unknown discriminator. -/
def badNotebookFields : List (String × Json) :=
  [("cells", .arr [.obj badCellFields]), ("metadata", .obj []),
   ("nbformat", .num 4), ("nbformat_minor", .num 5)]

/-- A valid notebook document whose metadata carries the unrecognized
top-level key `custom`. -/
def customKeyDocFields : List (String × Json) :=
  [("cells", .arr []), ("metadata", .obj [("custom", .str "x")]),
   ("nbformat", .num 4), ("nbformat_minor", .num 5)]

/-- The notebook value the `customKeyDocFields` document parses to. -/
def customKeyNb : Notebook :=
  { cells := [],
    metadata := { kernelspec := none, language_info := none,
                  other := .obj [("custom", .str "x")] },
    nbformat := 4, nbformat_minor := 5 }

/-- A valid notebook document whose single code cell carries a stream
output named `kettle` — neither `stdout` nor `stderr`. -/
def streamDocJson : Json :=
  .obj [("cells", .arr [.obj [("cell_type", .str "code"), ("source", .arr []),
          ("metadata", .obj []), ("execution_count", .null),
          ("outputs", .arr [.obj [("output_type", .str "stream"),
            ("name", .str "kettle"), ("text", .arr [])]])]]),
        ("metadata", .obj []), ("nbformat", .num 4), ("nbformat_minor", .num 5)]

/-- The notebook value `streamDocJson` parses to. -/
def streamNb : Notebook :=
  { cells := [.Code { source := [], metadata := .obj [], execution_count := none,
                      outputs := [.Stream "kettle" []] }],
    metadata := { kernelspec := none, language_info := none, other := .obj [] },
    nbformat := 4, nbformat_minor := 5 }

-- ===== Helper lemmas =====

/-- Inserting at an index within bounds grows the length by one. -/
theorem listInsertAt_length (l : List α) (i : Nat) (a : α) (h : i ≤ l.length) :
    (listInsertAt l i a).length = l.length + 1 := by
  induction l generalizing i with
  | nil =>
    have hi : i = 0 := Nat.le_zero.mp (by simpa using h)
    subst hi; simp [listInsertAt]
  | cons x xs ih =>
    cases i with
    | zero => simp [listInsertAt]
    | succ j => simp [listInsertAt]; exact ih j (by simpa using h)

/-- Inserting at the length appends. -/
theorem listInsertAt_at_length (l : List α) (a : α) :
    listInsertAt l l.length a = l ++ [a] := by
  induction l with
  | nil => simp [listInsertAt]
  | cons x xs ih => simp [listInsertAt, ih]

/-- A member of the inserted list is the new element or an old member. -/
theorem mem_listInsertAt (l : List α) (i : Nat) (a b : α)
    (h : b ∈ listInsertAt l i a) : b = a ∨ b ∈ l := by
  induction l generalizing i with
  | nil =>
    cases i <;> simp [listInsertAt] at h <;> simp [h]
  | cons x xs ih =>
    cases i with
    | zero =>
      simp [listInsertAt] at h
      rcases h with h | h | h <;> simp [h]
    | succ j =>
      simp [listInsertAt] at h
      rcases h with h | h
      · simp [h]
      · rcases ih j h with h1 | h1 <;> simp [h1]

/-- Element-wise left inverse lifts through `exceptMapM`. -/
theorem exceptMapM_roundtrip (f : β → Except String α) (g : α → β) (l : List α)
    (h : ∀ x ∈ l, f (g x) = .ok x) : exceptMapM f (l.map g) = .ok l := by
  induction l with
  | nil => simp [exceptMapM]
  | cons x xs ih =>
    have hx := h x (by simp)
    have hxs := ih (fun y hy => h y (by simp [hy]))
    simp [exceptMapM, hx, hxs]

/-- A failing element makes the whole `exceptMapM` fail. -/
theorem exceptMapM_error_of_mem (f : α → Except String β) (l : List α) (x : α) (m : String)
    (hx : x ∈ l) (hfx : f x = .error m) : ∃ m2, exceptMapM f l = .error m2 := by
  induction l with
  | nil => simp at hx
  | cons y ys ih =>
    rcases List.mem_cons.mp hx with heq | hmem
    · subst heq
      exact ⟨m, by simp [exceptMapM, hfx]⟩
    · cases hfy : f y with
      | error e => exact ⟨e, by simp [exceptMapM, hfy]⟩
      | ok b =>
        obtain ⟨m2, hm2⟩ := ih hmem
        exact ⟨m2, by simp [exceptMapM, hfy, hm2]⟩

/-- Serialized string lists parse back. -/
theorem parseStringList_roundtrip (l : List String) :
    parseStringList (strListJson l) = .ok l := by
  simp only [parseStringList, strListJson]
  exact exceptMapM_roundtrip _ _ _ (fun x _ => rfl)

/-- A serialized in-range `u32` parses back. -/
theorem parseU32_ofNat (n : Nat) (h : n < 4294967296) :
    parseU32 (.num (Int.ofNat n)) = .ok n := by
  simp [parseU32, h]

/-- A serialized in-range `u8` parses back. -/
theorem parseU8_ofNat (n : Nat) (h : n < 256) :
    parseU8 (.num (Int.ofNat n)) = .ok n := by
  simp [parseU8, h]

set_option maxRecDepth 4000 in
/-- A serialized in-range optional `u32` parses back. -/
theorem parseOptU32Value_optNumJson (ec : Option Nat)
    (h : ∀ n, ec = some n → n < 4294967296) :
    parseOptU32Value (optNumJson ec) = .ok ec := by
  cases ec with
  | none => rfl
  | some n =>
    have hn := h n rfl
    have h1 : parseOptU32Value (optNumJson (some n)) =
        match parseU32 (.num (Int.ofNat n)) with
        | .error e => .error e
        | .ok m => .ok (some m) := rfl
    rw [h1, parseU32_ofNat n hn]

set_option maxRecDepth 4000 in
/-- A serialized well-formed `Output` parses back to itself. -/
theorem Output_fromJson_toJson (o : Output) (h : o.Wf) :
    Output.fromJson o.toJson = .ok o := by
  cases o with
  | Stream name text =>
    have h1 : Output.fromJson (Output.toJson (.Stream name text)) =
        match exceptMapM parseJsonString (text.map Json.str) with
        | .error e => .error e
        | .ok t => .ok (.Stream name t) := rfl
    rw [h1, exceptMapM_roundtrip parseJsonString Json.str text (fun x _ => rfl)]
  | ExecuteResult ec data md =>
    simp only [Output.Wf] at h
    have h1 : Output.fromJson (Output.toJson (.ExecuteResult ec data md)) =
        match parseU32 (.num (Int.ofNat ec)) with
        | .error e => .error e
        | .ok m => .ok (.ExecuteResult m data md) := rfl
    rw [h1, parseU32_ofNat ec h]
  | DisplayData data md => rfl
  | Error ename evalue tb =>
    have h1 : Output.fromJson (Output.toJson (.Error ename evalue tb)) =
        match exceptMapM parseJsonString (tb.map Json.str) with
        | .error e => .error e
        | .ok t => .ok (.Error ename evalue t) := rfl
    rw [h1, exceptMapM_roundtrip parseJsonString Json.str tb (fun x _ => rfl)]

set_option maxRecDepth 4000 in
/-- A serialized well-formed `Cell` parses back to itself. -/
theorem Cell_fromJson_toJson (c : Cell) (h : c.Wf) :
    Cell.fromJson c.toJson = .ok c := by
  cases c with
  | Code cc =>
    obtain ⟨src, md, ec, outs⟩ := cc
    simp only [Cell.Wf] at h
    obtain ⟨hec, houts⟩ := h
    have hsrc : exceptMapM parseJsonString (src.map Json.str) = .ok src :=
      exceptMapM_roundtrip _ _ _ (fun x _ => rfl)
    have houtsRt : exceptMapM Output.fromJson (outs.map Output.toJson) = .ok outs :=
      exceptMapM_roundtrip _ _ _ (fun o ho => Output_fromJson_toJson o (houts o ho))
    have hecRt : parseOptU32Value (optNumJson ec) = .ok ec :=
      parseOptU32Value_optNumJson ec hec
    have h1 : Cell.fromJson (Cell.toJson (.Code ⟨src, md, ec, outs⟩)) =
        match exceptMapM parseJsonString (src.map Json.str) with
        | .error e => .error e
        | .ok source =>
          match parseOptU32Value (optNumJson ec) with
          | .error e => .error e
          | .ok execution_count =>
            match exceptMapM Output.fromJson (outs.map Output.toJson) with
            | .error e => .error e
            | .ok outputs =>
              .ok (.Code { source := source, metadata := md,
                           execution_count := execution_count, outputs := outputs }) := rfl
    rw [h1, hsrc, hecRt, houtsRt]
  | Markdown mc =>
    obtain ⟨src, md⟩ := mc
    have hsrc : exceptMapM parseJsonString (src.map Json.str) = .ok src :=
      exceptMapM_roundtrip _ _ _ (fun x _ => rfl)
    have h1 : Cell.fromJson (Cell.toJson (.Markdown ⟨src, md⟩)) =
        match exceptMapM parseJsonString (src.map Json.str) with
        | .error e => .error e
        | .ok source => .ok (.Markdown { source := source, metadata := md }) := rfl
    rw [h1, hsrc]
  | Raw rc =>
    obtain ⟨src, md⟩ := rc
    have hsrc : exceptMapM parseJsonString (src.map Json.str) = .ok src :=
      exceptMapM_roundtrip _ _ _ (fun x _ => rfl)
    have h1 : Cell.fromJson (Cell.toJson (.Raw ⟨src, md⟩)) =
        match exceptMapM parseJsonString (src.map Json.str) with
        | .error e => .error e
        | .ok source => .ok (.Raw { source := source, metadata := md }) := rfl
    rw [h1, hsrc]

/-- Invariants of model-built notebooks: the metadata is still the default
(`other = Null`), the format pair is `(4, 5)`, and every cell is well
formed. -/
theorem reachable_inv (nb : Notebook) (h : Reachable nb) :
    nb.metadata = NotebookMetadata.default ∧ nb.nbformat = 4 ∧ nb.nbformat_minor = 5 ∧
    ∀ c ∈ nb.cells, Cell.Wf c := by
  induction h with
  | base =>
    refine ⟨rfl, rfl, rfl, ?_⟩
    intro c hc
    simp [Notebook.default] at hc
  | insert_markdown nb i src hr ih =>
    obtain ⟨h1, h2, h3, h4⟩ := ih
    unfold Notebook.insert_markdown_cell Notebook.insert_cell
    split
    · refine ⟨h1, h2, h3, ?_⟩
      intro c hc
      rcases mem_listInsertAt _ _ _ _ hc with hceq | hcm
      · subst hceq; trivial
      · exact h4 c hcm
    · exact ⟨h1, h2, h3, h4⟩
  | insert_raw nb i src hr ih =>
    obtain ⟨h1, h2, h3, h4⟩ := ih
    unfold Notebook.insert_raw_cell Notebook.insert_cell
    split
    · refine ⟨h1, h2, h3, ?_⟩
      intro c hc
      rcases mem_listInsertAt _ _ _ _ hc with hceq | hcm
      · subst hceq; trivial
      · exact h4 c hcm
    · exact ⟨h1, h2, h3, h4⟩
  | insert_code nb i src ec outs hec houts hr ih =>
    obtain ⟨h1, h2, h3, h4⟩ := ih
    unfold Notebook.insert_code_cell Notebook.insert_cell
    split
    · refine ⟨h1, h2, h3, ?_⟩
      intro c hc
      rcases mem_listInsertAt _ _ _ _ hc with hceq | hcm
      · subst hceq; exact ⟨hec, houts⟩
      · exact h4 c hcm
    · exact ⟨h1, h2, h3, h4⟩
  | push_markdown nb src hr ih =>
    obtain ⟨h1, h2, h3, h4⟩ := ih
    refine ⟨h1, h2, h3, ?_⟩
    intro c hc
    rcases List.mem_append.mp hc with hcm | hceq
    · exact h4 c hcm
    · have : c = .Markdown { source := src, metadata := .obj [] } := by simpa using hceq
      subst this; trivial
  | push_raw nb src hr ih =>
    obtain ⟨h1, h2, h3, h4⟩ := ih
    refine ⟨h1, h2, h3, ?_⟩
    intro c hc
    rcases List.mem_append.mp hc with hcm | hceq
    · exact h4 c hcm
    · have : c = .Raw { source := src, metadata := .obj [] } := by simpa using hceq
      subst this; trivial
  | push_code nb src ec outs hec houts hr ih =>
    obtain ⟨h1, h2, h3, h4⟩ := ih
    refine ⟨h1, h2, h3, ?_⟩
    intro c hc
    rcases List.mem_append.mp hc with hcm | hceq
    · exact h4 c hcm
    · have : c = .Code { source := src, metadata := .obj [], execution_count := ec,
                         outputs := outs } := by simpa using hceq
      subst this; exact ⟨hec, houts⟩

/-- A value looked up in an association list is one of its stored values. -/
theorem mapGet_mem_values [DecidableEq κ] (l : List (κ × α)) (k : κ) (v : α)
    (h : mapGet l k = some v) : v ∈ l.map Prod.snd := by
  induction l with
  | nil => simp [mapGet] at h
  | cons p rest ih =>
    obtain ⟨k1, v1⟩ := p
    rw [mapGet] at h
    split at h
    · injection h with h
      subst h
      simp
    · simp [ih h]

/-- Filtering by a predicate the key satisfies preserves lookup. -/
theorem getField_filter (p : String × Json → Bool) (l : List (String × Json)) (k : String)
    (hp : ∀ v, p (k, v) = true) : getField (l.filter p) k = getField l k := by
  induction l with
  | nil => rfl
  | cons kv rest ih =>
    obtain ⟨k1, v1⟩ := kv
    by_cases hk : k1 = k
    · subst hk
      simp [List.filter_cons, hp v1, getField]
    · cases hpkv : p (k1, v1) with
      | true => simp [List.filter_cons, hpkv, getField, hk, ih]
      | false => simp [List.filter_cons, hpkv, getField, hk, ih]

-- ===== Claim theorems =====

/-- C2: for every notebook, index and cell, `insert_cell` returns true and
increases `len` by exactly one iff the index is at most `len` beforehand;
otherwise it returns false and the notebook (with its cell sequence) is
completely unchanged.  The typed wrappers `insert_markdown_cell`,
`insert_raw_cell` and `insert_code_cell` are `insert_cell` applied to the
built cell, so this covers them. -/
theorem insert_cell_bounds (nb : Notebook) (i : Nat) (c : Cell) :
    ((nb.insert_cell i c).1 = true ∧ (nb.insert_cell i c).2.len = nb.len + 1 ↔ i ≤ nb.len)
    ∧ (nb.len < i → (nb.insert_cell i c).1 = false ∧ (nb.insert_cell i c).2 = nb) := by
  by_cases hle : i ≤ nb.cells.length
  · constructor
    · simp [Notebook.insert_cell, Notebook.len, hle, listInsertAt_length nb.cells i c hle]
    · intro hgt
      simp [Notebook.len] at hgt
      omega
  · constructor
    · simp [Notebook.insert_cell, Notebook.len, hle]
    · intro _
      simp [Notebook.insert_cell, hle]

/-- C2 witness: at a concrete notebook, inserting at index 0 succeeds and
inserting at index 3 (out of bounds for the empty default) fails and leaves
the notebook unchanged. -/
theorem insert_cell_bounds_witness :
    (Notebook.default.insert_cell 0 sampleCell).1 = true
    ∧ (Notebook.default.insert_cell 3 sampleCell).1 = false
    ∧ (Notebook.default.insert_cell 3 sampleCell).2 = Notebook.default :=
  ⟨((insert_cell_bounds Notebook.default 0 sampleCell).1.mpr (by decide)).1,
   ((insert_cell_bounds Notebook.default 3 sampleCell).2 (by decide)).1,
   ((insert_cell_bounds Notebook.default 3 sampleCell).2 (by decide)).2⟩

/-- C3: the source's `translate_key_event` is not total over the eight
modes — the `match` has no arm for `Replace` (and the translator holds no
replace-mode table), so the embedding yields `none` (no defined result) in
`Replace` mode, while each of the other seven modes does consult its own
table and always yields a defined lookup result. -/
theorem translate_replace_arm_missing (t : EventTranslator) (e : KeyEvent) :
    t.translate_key_event e InputMode.Replace = none
    ∧ ∀ m : InputMode, m ≠ InputMode.Replace → (t.translate_key_event e m).isSome = true := by
  constructor
  · rfl
  · intro m hm
    cases m <;> first | rfl | exact absurd rfl hm

/-- C3 witness: at the default translator and the Escape key, Replace mode
has no defined result while Normal mode does. -/
theorem translate_replace_arm_missing_witness :
    EventTranslator.default.translate_key_event
        { code := KeyCode.Esc, modifiers := KeyModifiers.NONE } InputMode.Replace = none
    ∧ (EventTranslator.default.translate_key_event
        { code := KeyCode.Esc, modifiers := KeyModifiers.NONE } InputMode.Normal).isSome
      = true :=
  ⟨(translate_replace_arm_missing EventTranslator.default
      { code := KeyCode.Esc, modifiers := KeyModifiers.NONE }).1,
   (translate_replace_arm_missing EventTranslator.default
      { code := KeyCode.Esc, modifiers := KeyModifiers.NONE }).2 InputMode.Normal (by decide)⟩

/-- C6: a key+modifier pair bound in the default Insert-mode table and
absent from the default Normal-mode table translates to the bound command
in Insert mode and to no command in Normal mode, for the identical key
event. -/
theorem insert_only_binding_isolation (e : KeyEvent) (c : EditorCommand)
    (hins : mapGet EventTranslator.default.insert_mode_event_map (e.code, e.modifiers) = some c)
    (hnorm : mapGet EventTranslator.default.normal_mode_event_map (e.code, e.modifiers) = none) :
    EventTranslator.default.translate_key_event e InputMode.Insert = some (some c)
    ∧ EventTranslator.default.translate_key_event e InputMode.Normal = some none := by
  constructor <;> simp [EventTranslator.translate_key_event, hins, hnorm]

/-- C6 witness: Ctrl+W is bound only in the Insert-mode table (to
`DeletePreviousWord`), translates to it in Insert mode, and to no command
in Normal mode. -/
theorem insert_only_binding_isolation_witness :
    EventTranslator.default.translate_key_event
        { code := KeyCode.Char 'w', modifiers := KeyModifiers.CONTROL } InputMode.Insert
      = some (some EditorCommand.DeletePreviousWord)
    ∧ EventTranslator.default.translate_key_event
        { code := KeyCode.Char 'w', modifiers := KeyModifiers.CONTROL } InputMode.Normal
      = some none :=
  insert_only_binding_isolation
    { code := KeyCode.Char 'w', modifiers := KeyModifiers.CONTROL }
    EditorCommand.DeletePreviousWord rfl rfl

/-- C7: `execute_command` wires only the bare `Quit` command — a
`Repeat(Quit, 3)` falls into the catch-all arm and leaves the whole session
(including the `leaving` flag) unchanged, while a bare `Quit` sets
`leaving` and changes nothing else. -/
theorem repeat_quit_not_wired (app : NotebookApp) :
    app.execute_command (EditorCommand.Repeat EditorCommand.Quit 3) = app
    ∧ (app.execute_command EditorCommand.Quit).leaving = true
    ∧ (app.execute_command EditorCommand.Quit).notebook = app.notebook
    ∧ (app.execute_command EditorCommand.Quit).selected = app.selected :=
  ⟨rfl, rfl, rfl, rfl⟩

/-- C8: `push_cell` always succeeds and produces exactly the notebook a
successful `insert_cell` at index `len` produces; the typed push wrappers
agree with the corresponding typed insert wrappers at index `len`. -/
theorem push_cell_eq_insert_at_len (nb : Notebook) (c : Cell) (src : List String)
    (ec : Option Nat) (outs : List Output) :
    nb.push_cell c = (nb.insert_cell nb.len c).2
    ∧ (nb.insert_cell nb.len c).1 = true
    ∧ nb.push_markdown_cell src = (nb.insert_markdown_cell nb.len src).2
    ∧ nb.push_raw_cell src = (nb.insert_raw_cell nb.len src).2
    ∧ nb.push_code_cell src ec outs = (nb.insert_code_cell nb.len src ec outs).2 := by
  have key : ∀ cl : Cell,
      nb.push_cell cl = (nb.insert_cell nb.len cl).2 ∧ (nb.insert_cell nb.len cl).1 = true := by
    intro cl
    unfold Notebook.push_cell Notebook.insert_cell Notebook.len
    rw [if_pos (le_refl nb.cells.length)]
    exact ⟨by rw [listInsertAt_at_length], rfl⟩
  exact ⟨(key c).1, (key c).2, (key _).1, (key _).1, (key _).1⟩

/-- C10: in the default translator, Ctrl+V in Normal mode translates to
`SwitchToVisualBlockMode`, and no key event at all is mapped by the default
Normal-mode table to `SwitchToVisualMode` — the second insertion at the
same pair overwrote it. -/
theorem normal_ctrl_v_overwritten (k : KeyCode) (m : KeyModifiers) :
    EventTranslator.default.translate_key_event
        { code := KeyCode.Char 'v', modifiers := KeyModifiers.CONTROL } InputMode.Normal
      = some (some EditorCommand.SwitchToVisualBlockMode)
    ∧ mapGet EventTranslator.default.normal_mode_event_map (k, m)
        ≠ some EditorCommand.SwitchToVisualMode := by
  constructor
  · rfl
  · intro hcontra
    have hmem := mapGet_mem_values EventTranslator.default.normal_mode_event_map (k, m)
      EditorCommand.SwitchToVisualMode hcontra
    have hvals : (EventTranslator.default.normal_mode_event_map).map Prod.snd =
        [EditorCommand.Quit, EditorCommand.ToLeftPane, EditorCommand.ToRightPane,
         EditorCommand.ToUpperPane, EditorCommand.ToLowerPane,
         EditorCommand.SwitchToInsertMode, EditorCommand.SwitchToVisualBlockMode,
         EditorCommand.SwitchToVisualLineMode] := rfl
    rw [hvals] at hmem
    simp at hmem

/-- C10 witness: the Ctrl+V lookup evaluated, and the no-visual-mode fact
applied at a concrete key. -/
theorem normal_ctrl_v_overwritten_witness :
    EventTranslator.default.translate_key_event
        { code := KeyCode.Char 'v', modifiers := KeyModifiers.CONTROL } InputMode.Normal
      = some (some EditorCommand.SwitchToVisualBlockMode)
    ∧ ¬ mapGet EventTranslator.default.normal_mode_event_map
        (KeyCode.Char 'q', KeyModifiers.CONTROL) = some EditorCommand.SwitchToVisualMode :=
  ⟨(normal_ctrl_v_overwritten (KeyCode.Char 'q') KeyModifiers.CONTROL).1,
   (normal_ctrl_v_overwritten (KeyCode.Char 'q') KeyModifiers.CONTROL).2⟩

-- ===== Inversion lemmas for the parse functions =====

/-- A required field that parsed successfully was present with that value. -/
theorem reqField_ok_inv (fields : List (String × Json)) (k : String) (v : Json)
    (h : reqField fields k = .ok v) : getField fields k = some v := by
  unfold reqField at h
  split at h
  next v1 hv1 =>
    injection h with h1
    subst h1
    exact hv1
  next => injection h

/-- A JSON value that parsed as a string was that string literal. -/
theorem parseJsonString_ok_inv (j : Json) (s : String) (h : parseJsonString j = .ok s) :
    j = .str s := by
  cases j <;> simp_all [parseJsonString]

/-- A `LanguageInfo` obtained by parsing serializes successfully: its
flattened `other` is always an object. -/
theorem languageInfo_toJson_ok (v : Json) (li : LanguageInfo)
    (h : LanguageInfo.fromJson v = .ok li) : ∃ x, li.toJson = .ok x := by
  unfold LanguageInfo.fromJson at h
  split at h
  case h_2 => injection h
  next fs =>
  split at h
  case h_1 => injection h
  next liJson hname =>
  split at h
  case h_1 => injection h
  next nm hnm =>
  split at h
  case h_1 => injection h
  next ver hver =>
  split at h
  case h_1 => injection h
  next mt hmt =>
  split at h
  case h_1 => injection h
  next fe hfe =>
  injection h with h1
  subst h1
  exact ⟨_, rfl⟩

/-- A parsed optional `language_info` entry serializes successfully. -/
theorem parseLanguageInfoField_serializable (fields : List (String × Json))
    (lio : Option LanguageInfo) (h : parseLanguageInfoField fields = .ok lio) :
    ∃ liJson, optLanguageInfoJson lio = .ok liJson := by
  unfold parseLanguageInfoField at h
  split at h
  · injection h with h1; subst h1; exact ⟨.null, rfl⟩
  · injection h with h1; subst h1; exact ⟨.null, rfl⟩
  · split at h
    · injection h
    · next li hli =>
      injection h with h1
      subst h1
      exact languageInfo_toJson_ok _ li hli

/-- Parsed top-level metadata keeps the leftover entries in `other` (an
object), and its `language_info` serializes successfully. -/
theorem metadata_fromJson_inv (mdFields : List (String × Json)) (md : NotebookMetadata)
    (h : NotebookMetadata.fromJson (.obj mdFields) = .ok md) :
    md.other = .obj (mdFields.filter mdOtherKeep)
    ∧ ∃ liJson, optLanguageInfoJson md.language_info = .ok liJson := by
  simp only [NotebookMetadata.fromJson] at h
  split at h
  case h_1 => injection h
  next ks hks =>
  split at h
  case h_1 => injection h
  next lio hlio =>
  injection h with h1
  subst h1
  exact ⟨rfl, parseLanguageInfoField_serializable mdFields lio hlio⟩

/-- Shape of serialized metadata whose `other` is an object. -/
theorem metadata_toJson_shape (md : NotebookMetadata) (extra : List (String × Json))
    (liJson : Json) (hother : md.other = .obj extra)
    (hli : optLanguageInfoJson md.language_info = .ok liJson) :
    md.toJson = .ok (.obj ([("kernelspec", match md.kernelspec with
                                           | none => Json.null
                                           | some k => k.toJson),
                            ("language_info", liJson)] ++ extra)) := by
  unfold NotebookMetadata.toJson
  rw [hli, hother]
  rfl

/-- Shape of a serialized notebook whose metadata serializes. -/
theorem save_with_md (nb : Notebook) (mdOut : Json) (h : nb.metadata.toJson = .ok mdOut) :
    nb.save_to_str = .ok (.obj [("cells", .arr (nb.cells.map Cell.toJson)),
      ("metadata", mdOut), ("nbformat", .num (Int.ofNat nb.nbformat)),
      ("nbformat_minor", .num (Int.ofNat nb.nbformat_minor))]) := by
  unfold Notebook.save_to_str
  rw [h]

/-- Lookup in serialized metadata skips the two typed entries for any
other key. -/
theorem getField_mdOut (a b : Json) (rest : List (String × Json)) (k : String)
    (hk1 : k ≠ "kernelspec") (hk2 : k ≠ "language_info") :
    getField (("kernelspec", a) :: ("language_info", b) :: rest) k = getField rest k := by
  simp only [getField]
  rw [if_neg (fun hh => hk1 hh.symm), if_neg (fun hh => hk2 hh.symm)]

/-- A successfully parsed notebook document had a `metadata` entry, and
that entry parsed to the notebook's metadata. -/
theorem from_str_ok_inv (docFields : List (String × Json)) (nb : Notebook)
    (h : Notebook.from_str (.obj docFields) = .ok nb) :
    ∃ mdJson, getField docFields "metadata" = some mdJson
      ∧ NotebookMetadata.fromJson mdJson = .ok nb.metadata := by
  simp only [Notebook.from_str] at h
  split at h
  case h_1 => injection h
  next cellsJson hcells =>
  split at h
  case h_2 => injection h
  next cellList =>
  split at h
  case h_1 => injection h
  next cells hcellsOk =>
  split at h
  case h_1 => injection h
  next mdJson hmdJson =>
  split at h
  case h_1 => injection h
  next md hmd =>
  split at h
  case h_1 => injection h
  next fmtJson hfmt =>
  split at h
  case h_1 => injection h
  next f1 hf1 =>
  split at h
  case h_1 => injection h
  next fmJson hfmJ =>
  split at h
  case h_1 => injection h
  next f2 hf2 =>
  injection h with h1
  subst h1
  exact ⟨mdJson, reqField_ok_inv docFields "metadata" mdJson hmdJson, hmd⟩

/-- An output object that parsed as a `Stream` carried a string `name`
entry holding exactly the parsed name — the parser never validates or
rewrites it. -/
theorem output_fromJson_stream_inv (fields : List (String × Json)) (name : String)
    (text : List String)
    (h : Output.fromJson (.obj fields) = .ok (.Stream name text)) :
    getField fields "name" = some (.str name) := by
  simp only [Output.fromJson] at h
  split at h
  case h_2 => injection h
  case h_3 => injection h
  next tag htag =>
  by_cases h1 : tag = "stream"
  · rw [if_pos h1] at h
    split at h
    next => injection h
    next nameJson hname =>
    split at h
    next => injection h
    next nm hnm =>
    split at h
    next => injection h
    next textJson htext =>
    split at h
    next => injection h
    next t ht =>
    injection h with hinj
    injection hinj with hn htt
    subst hn
    rw [reqField_ok_inv fields "name" nameJson hname,
        parseJsonString_ok_inv nameJson nm hnm]
  · rw [if_neg h1] at h
    repeat' split at h
    all_goals exact absurd h (by simp)

/-- C1 counterexample: the claim fails at `Notebook::default` itself —
serializing it does not even succeed, because its metadata carries the
flattened `other = Value::Null`, which serde's flatten rejects; so
`parse(serialize(n)) = n` cannot hold for this representable notebook. -/
theorem roundtrip_default_serialize_fails :
    Notebook.default.save_to_str = .error "can only flatten structs and maps" := rfl

/-- C1 (amended): for every notebook built via `Notebook::default` and the
insert/push mutation operations, serialization fails outright (the default
metadata's flattened `other` is `Null`); after replacing that `other` with
the empty JSON object — the shape every parsed notebook has — serialization
succeeds and parsing the result yields a notebook equal to it in every
field the model tracks. -/
theorem roundtrip_reachable (nb : Notebook) (h : Reachable nb) :
    nb.save_to_str = .error "can only flatten structs and maps"
    ∧ ∃ j, nb.withEmptyOther.save_to_str = .ok j
        ∧ Notebook.from_str j = .ok nb.withEmptyOther := by
  obtain ⟨hmd, hf, hfm, hwf⟩ := reachable_inv nb h
  have hcells : exceptMapM Cell.fromJson (nb.cells.map Cell.toJson) = .ok nb.cells :=
    exceptMapM_roundtrip _ _ _ (fun c hc => Cell_fromJson_toJson c (hwf c hc))
  constructor
  · have hmdJson : nb.metadata.toJson = .error "can only flatten structs and maps" := by
      rw [hmd]
      rfl
    unfold Notebook.save_to_str
    rw [hmdJson]
  · have hnb : nb.withEmptyOther =
        { cells := nb.cells,
          metadata := { kernelspec := none, language_info := none, other := .obj [] },
          nbformat := 4, nbformat_minor := 5 } := by
      unfold Notebook.withEmptyOther
      rw [hmd, hf, hfm]
      rfl
    rw [hnb]
    refine ⟨.obj [("cells", .arr (nb.cells.map Cell.toJson)),
                  ("metadata", .obj [("kernelspec", Json.null), ("language_info", Json.null)]),
                  ("nbformat", .num (Int.ofNat 4)), ("nbformat_minor", .num (Int.ofNat 5))],
            rfl, ?_⟩
    have h2 : Notebook.from_str (.obj [("cells", .arr (nb.cells.map Cell.toJson)),
          ("metadata", .obj [("kernelspec", Json.null), ("language_info", Json.null)]),
          ("nbformat", .num (Int.ofNat 4)), ("nbformat_minor", .num (Int.ofNat 5))]) =
        match exceptMapM Cell.fromJson (nb.cells.map Cell.toJson) with
        | .error e => .error e
        | .ok cells =>
          .ok { cells := cells,
                metadata := { kernelspec := none, language_info := none, other := .obj [] },
                nbformat := 4, nbformat_minor := 5 } := rfl
    rw [h2, hcells]

/-- C1 witness: the amended round trip applied to a concrete model-built
notebook (default plus one pushed code cell). -/
theorem roundtrip_reachable_witness :
    sampleNb.save_to_str = .error "can only flatten structs and maps"
    ∧ ∃ j, sampleNb.withEmptyOther.save_to_str = .ok j
        ∧ Notebook.from_str j = .ok sampleNb.withEmptyOther :=
  roundtrip_reachable sampleNb
    (Reachable.push_code Notebook.default ["x=1"] (some 1) [Output.stream_stdout "hi"]
      (fun n hn => by injection hn with h2; omega)
      (fun o ho => by
        simp [Output.stream_stdout] at ho
        subst ho
        trivial)
      Reachable.base)

/-- C4: a cell object whose `cell_type` is a string other than
code/markdown/raw fails to parse with an "unknown variant" error, an output
object whose `output_type` is a string other than
stream/execute_result/display_data/error likewise, and a notebook document
containing any failing cell fails to parse as a whole — no default variant
and no partially populated notebook is ever produced. -/
theorem unknown_discriminators_rejected
    (cellFields outFields docFields : List (String × Json)) (tagC tagO : String)
    (cellsJson : List Json) (j : Json) :
    (getField cellFields "cell_type" = some (.str tagC) → tagC ≠ "code" → tagC ≠ "markdown" →
      tagC ≠ "raw" → Cell.fromJson (.obj cellFields) = .error ("unknown variant " ++ tagC))
    ∧ (getField outFields "output_type" = some (.str tagO) → tagO ≠ "stream" →
      tagO ≠ "execute_result" → tagO ≠ "display_data" → tagO ≠ "error" →
      Output.fromJson (.obj outFields) = .error ("unknown variant " ++ tagO))
    ∧ (getField docFields "cells" = some (.arr cellsJson) → j ∈ cellsJson →
      (∃ msg, Cell.fromJson j = .error msg) →
      ∃ msg2, Notebook.from_str (.obj docFields) = .error msg2) := by
  refine ⟨?_, ?_, ?_⟩
  · intro htag h1 h2 h3
    simp [Cell.fromJson, htag, h1, h2, h3]
  · intro htag h1 h2 h3 h4
    simp [Output.fromJson, htag, h1, h2, h3, h4]
  · intro hcells hmem hex
    obtain ⟨msg, hmsg⟩ := hex
    obtain ⟨m2, hm2⟩ := exceptMapM_error_of_mem Cell.fromJson cellsJson j msg hmem hmsg
    exact ⟨m2, by simp [Notebook.from_str, reqField, hcells, hm2]⟩

/-- C4 witness: the discriminator rejections evaluated at a cell tagged
`cod`, an output tagged `streamz`, and a document containing the bad
cell. -/
theorem unknown_discriminators_rejected_witness :
    Cell.fromJson (.obj badCellFields) = .error ("unknown variant " ++ "cod")
    ∧ Output.fromJson (.obj badOutputFields) = .error ("unknown variant " ++ "streamz")
    ∧ ∃ msg2, Notebook.from_str (.obj badNotebookFields) = .error msg2 :=
  ⟨(unknown_discriminators_rejected badCellFields badOutputFields badNotebookFields
      "cod" "streamz" [] Json.null).1 rfl (by decide) (by decide) (by decide),
   (unknown_discriminators_rejected badCellFields badOutputFields badNotebookFields
      "cod" "streamz" [] Json.null).2.1 rfl (by decide) (by decide) (by decide) (by decide),
   (unknown_discriminators_rejected badCellFields badOutputFields badNotebookFields
      "cod" "streamz" [.obj badCellFields] (.obj badCellFields)).2.2 rfl (by simp)
      ⟨"unknown variant " ++ "cod", rfl⟩⟩

/-- C5: parsing a valid notebook document whose metadata object carries a
key other than `kernelspec`/`language_info`, then serializing the parsed
notebook, produces a document whose metadata object still maps that key to
its original value. -/
theorem unknown_metadata_key_preserved
    (docFields mdFields : List (String × Json)) (nb : Notebook) (k : String) (v : Json)
    (hparse : Notebook.from_str (.obj docFields) = .ok nb)
    (hmd : getField docFields "metadata" = some (.obj mdFields))
    (hk1 : k ≠ "kernelspec") (hk2 : k ≠ "language_info")
    (hkv : getField mdFields k = some v) :
    ∃ outFields mdOutFields, nb.save_to_str = .ok (.obj outFields)
      ∧ getField outFields "metadata" = some (.obj mdOutFields)
      ∧ getField mdOutFields k = some v := by
  obtain ⟨mdJson, hmdEq, hmdOk⟩ := from_str_ok_inv docFields nb hparse
  rw [hmd] at hmdEq
  injection hmdEq with hmdEq
  subst hmdEq
  obtain ⟨hother, liJson, hli⟩ := metadata_fromJson_inv mdFields nb.metadata hmdOk
  have hmdOut := metadata_toJson_shape nb.metadata _ liJson hother hli
  refine ⟨_, ([("kernelspec", match nb.metadata.kernelspec with
                              | none => Json.null
                              | some k2 => k2.toJson),
               ("language_info", liJson)] ++ mdFields.filter mdOtherKeep),
          save_with_md nb _ hmdOut, ?_, ?_⟩
  · simp [getField]
  · simp only [List.cons_append, List.nil_append]
    rw [getField_mdOut _ liJson _ k hk1 hk2]
    rw [getField_filter mdOtherKeep mdFields k (fun v2 => by simp [mdOtherKeep, hk1, hk2])]
    exact hkv

/-- C5 witness: a concrete document whose metadata carries the
unrecognized key `custom`; after parse and serialize the key is still
there with its original value. -/
theorem unknown_metadata_key_preserved_witness :
    ∃ outFields mdOutFields, customKeyNb.save_to_str = .ok (.obj outFields)
      ∧ getField outFields "metadata" = some (.obj mdOutFields)
      ∧ getField mdOutFields "custom" = some (.str "x") :=
  unknown_metadata_key_preserved customKeyDocFields [("custom", Json.str "x")] customKeyNb
    "custom" (.str "x") rfl rfl (by decide) (by decide) rfl

/-- C9 counterexample: the claim fails for parsed notebooks — this valid
document parses successfully to a notebook whose stream output is named
`kettle`, which is neither `stdout` nor `stderr`; the parser does not
validate the name. -/
theorem stream_name_not_validated :
    Notebook.from_str streamDocJson = .ok streamNb
    ∧ streamNb.cells = [.Code { source := [], metadata := .obj [], execution_count := none,
                                outputs := [.Stream "kettle" []] }]
    ∧ (("kettle" == "stdout") || ("kettle" == "stderr")) = false :=
  ⟨rfl, rfl, by decide⟩

/-- C9 (amended): the provided constructors produce only the names
`stdout` and `stderr`, but parsing performs no validation — a parsed
`Stream` carries verbatim whatever string the document's `name` entry
held. -/
theorem stream_parse_preserves_name (s : String) (fields : List (String × Json))
    (name : String) (text : List String)
    (h : Output.fromJson (.obj fields) = .ok (.Stream name text)) :
    getField fields "name" = some (.str name)
    ∧ Output.stream_stdout s = .Stream "stdout" [s]
    ∧ Output.stream_stderr s = .Stream "stderr" [s] :=
  ⟨output_fromJson_stream_inv fields name text h, rfl, rfl⟩

/-- C9 witness: the amended statement applied to the `kettle` stream
object. -/
theorem stream_parse_preserves_name_witness :
    getField [("output_type", Json.str "stream"), ("name", Json.str "kettle"),
              ("text", Json.arr [])] "name" = some (.str "kettle")
    ∧ Output.stream_stdout "hi" = .Stream "stdout" ["hi"]
    ∧ Output.stream_stderr "hi" = .Stream "stderr" ["hi"] :=
  stream_parse_preserves_name "hi" [("output_type", Json.str "stream"),
    ("name", Json.str "kettle"), ("text", Json.arr [])] "kettle" [] rfl
